import Mathlib

/-!
Verification of the randomness request lifecycle scripts of the
hardhat VRF contracts repository.

The definitions below are a shallow embedding of the TypeScript task
`request-randomness` (scripts file, here `src/unnamed/part_004`), of the
companion task `request-randomness-2` (`src/unnamed/part_002`) and of the
utility `encodeOnChainVRFProvingKey` (`src/unnamed/part_001`).

Addresses, 32-byte topics and subscription identifiers are modelled as
natural numbers (JavaScript bigints are arbitrary-precision; address
case-insensitive comparison becomes plain equality).  The mutable JS
variable `subId : bigint | undefined` is modelled as a `Nat` where `0`
plays the role of the falsy values (`undefined` and `0n` are both falsy
in the script's `if (!subId)` tests, so the identification is exact).
Remote calls that may revert or be unavailable are modelled as `Option`
results: `none` is a thrown/absent answer caught by the surrounding
`try`/`catch` of the script.
-/

namespace VRF

/-- A subscription record as returned by `coordinator.getSubscription`. -/
structure Subscription where
  subOwner : Nat
  balance : Nat
  nativeBalance : Nat
  reqCount : Nat
  consumers : List Nat
deriving DecidableEq, Repr

/-- An EVM event log from a transaction receipt: emitting address, indexed
topics (32-byte words) and the data payload given as the list of hex digits
following the `0x` of the RPC hex string (so JS `log.data.length >= 66`
becomes `64 ≤ data.length` here). -/
structure EthLog where
  addr : Nat
  topics : List Nat
  data : List Nat
deriving DecidableEq, Repr

/-- The remote observations the subscription-resolution part of the task can
make.  `activeIdsPre` is the `getActiveSubscriptionIds(0, 100)` answer before
the creation transaction, `activeIdsPost` the one taken right after it and
`activeIdsPost2` the one taken inside the single-log fallback branch (the
script issues three separate calls).  `none` models the call throwing
(method unavailable), which the script catches. -/
structure Chain where
  signer : Nat
  coordinator : Nat
  activeIdsPre : Option (List Nat)
  receiptLogs : List EthLog
  activeIdsPost : Option (List Nat)
  activeIdsPost2 : Option (List Nat)
  getSubscription : Nat → Option Subscription

/-- Topic hash of the v2 `SubscriptionCreated` event
(`knownSubscriptionCreatedTopics[0]` in the script). -/
def v2CreatedTopic : Nat :=
  0x464722b4166576d3dcbba877b999bc35cf911f4eaf1b6cb7c3512044693085d3

/-- Topic hash of the v2.5 `SubscriptionCreated` event
(`knownSubscriptionCreatedTopics[1]` in the script). -/
def v25CreatedTopic : Nat :=
  0x1d3015d7ba850fa198dc7b1a3f5d42779313a681035f77c8c03764c61005518d

/-- Topic hash of `RandomWordsRequested`. -/
def randomWordsRequestedTopic : Nat :=
  0x63373d1c4696214b898952999c9aaec57dac1ee2723cec59bea6888f489a9772

/-- Topic hash of `RandomWordsFulfilled`. -/
def randomWordsFulfilledTopic : Nat :=
  0x7dffc5ae5ee4e2e4df1651cf6ad329a73cebdb728f38e8f424e4c59c26a345e5

/-- Topic hash of the consumer's `DiceRolled` event (`request-randomness-2`). -/
def diceRolledTopic : Nat :=
  0x4f2e3ef0829af24a5214761a2ede4d31c6a09ac580bf5da4e8bc394fb2603d1f

/-- `getSubscription(id)` succeeded and the returned owner equals the signer
(the script's `sub.subOwner.toLowerCase() === signerAddress.toLowerCase()`). -/
def isOwned (c : Chain) (id : Nat) : Bool :=
  match c.getSubscription id with
  | some sub => sub.subOwner == c.signer
  | none => false

/-- Owner matches and the request counter is zero
(`sub.reqCount !== undefined && sub.reqCount === 0n`). -/
def isFreshOwned (c : Chain) (id : Nat) : Bool :=
  match c.getSubscription id with
  | some sub => sub.subOwner == c.signer && sub.reqCount == 0
  | none => false

/-- `for (let i = lo; i <= hi; i++) { ... if owned → subId = i, break }`:
first owned id in the ascending range, `0` when none is found. -/
def probeFirstOwned (c : Chain) (lo hi : Nat) : Nat :=
  ((List.range' lo (hi + 1 - lo)).find? (fun i => isOwned c i)).getD 0

/-- Descending variant,
`for (let i = hi; i >= lo; i--) { ... if owned → subId = i, break }`. -/
def probeFirstOwnedDesc (c : Chain) (hi lo : Nat) : Nat :=
  (((List.range' lo (hi + 1 - lo)).reverse).find? (fun i => isOwned c i)).getD 0

/-- The wide 1..100 probe of the script, the only probe that insists on
`reqCount === 0n` in addition to ownership. -/
def probeWideFresh (c : Chain) : Nat :=
  ((List.range' 1 100).find? (fun i => isFreshOwned c i)).getD 0

/-- First owned id of an explicitly enumerated id list (paths that use
`getActiveSubscriptionIds` results). -/
def firstOwnedIn (c : Chain) (ids : List Nat) : Nat :=
  (ids.find? (fun i => isOwned c i)).getD 0

/-- Ids known before the creation transaction: the pre-enumeration if the
call succeeded, otherwise the manual existence scan over ids 1..20. -/
def existingIds (c : Chain) : List Nat :=
  match c.activeIdsPre with
  | some ids => ids
  | none => (List.range' 1 20).filter (fun i => (c.getSubscription i).isSome)

/-- Event-diff strategy: enumerate after creation, keep the ids not present
before, select the first one owned by the signer.  (The JS set difference
uses `includes`; the number/bigint mismatch of the manual-scan fallback only
changes which candidates are examined, and every candidate is still
owner-checked, which is all the theorems below rely on.) -/
def pathA (c : Chain) : Nat :=
  match c.activeIdsPost with
  | none => 0
  | some post => firstOwnedIn c (post.filter (fun id => ¬ (existingIds c).contains id))

/-- `receipt.logs.length === 1 && receipt.logs[0].topics.length === 2`. -/
def singleTwoTopicLog (c : Chain) : Bool :=
  match c.receiptLogs with
  | [l] => l.topics.length == 2
  | _ => false

/-- Single-log fallback: re-enumerate active ids and owner-check them; if
that fails, run the wide 1..100 freshness probe. -/
def pathB (c : Chain) : Nat :=
  let b1 := match c.activeIdsPost2 with
    | some ids => firstOwnedIn c ids
    | none => 0
  if b1 ≠ 0 then b1 else probeWideFresh c

/-- Value of a big-endian sequence of hex digits (`BigInt("0x" + s)`). -/
def hexVal (ds : List Nat) : Nat :=
  ds.foldl (fun a d => a * 16 + d) 0

/-- Direct hex extraction over the receipt logs: for every coordinator log
with at least one 32-byte data word, read the first word as a candidate id;
if it passes the sanity bound and its owner matches, it becomes the current
candidate (the loop has no break, so a later matching log overwrites an
earlier one, exactly as in the script). -/
def pathC (c : Chain) : Nat :=
  c.receiptLogs.foldl
    (fun acc l =>
      if l.addr = c.coordinator ∧ 64 ≤ l.data.length then
        let pid := hexVal (l.data.take 64)
        if 0 < pid ∧ pid < 1000000 then
          (if isOwned c pid then pid else acc)
        else acc
      else acc)
    0

/-- One step of the script's binary search for the highest existing
subscription id (`left`/`right`/`maxExistingId`).  The JS `while` loop
shrinks the interval `right - left + 1` by at least one per iteration and
starts from an interval of length 1000, so a fuel of 1001 is never
exhausted; the fuel only makes the recursion structural. -/
def binSearchAux (c : Chain) : Nat → Nat → Nat → Nat → Nat
  | 0, _, _, maxE => maxE
  | fuel + 1, left, right, maxE =>
    if left ≤ right then
      let mid := (left + right) / 2
      if (c.getSubscription mid).isSome then
        binSearchAux c fuel (mid + 1) right (max maxE mid)
      else
        binSearchAux c fuel left (mid - 1) maxE
    else maxE

/-- `Math.floor` binary search over 1..1000 from the script. -/
def maxExistingId (c : Chain) : Nat :=
  binSearchAux c 1001 1 1000 0

/-- After the binary search: owner-recheck the most recent few ids,
`for (let i = maxExistingId; i >= Math.max(1, maxExistingId - 5); i--)`. -/
def recheckTop (c : Chain) : Nat :=
  let m := maxExistingId c
  if 0 < m then probeFirstOwnedDesc c m (max 1 (m - 5)) else 0

/-- Whether `abiCoder.decode(['address'], log.data)` succeeds: one 32-byte
word whose first 12 bytes are zero padding (ethers throws otherwise, which
the script catches, skipping the probes guarded by the decode). -/
def decodeAddressOk (d : List Nat) : Bool :=
  d.length == 64 && (d.take 24).all (fun x => x == 0)

/-- The owner-only probes guarded by the successful address decode of the
v2.5 branch: ids 1..10, then 11..30, then the binary search with its
descending owner recheck. -/
def v25Probes (c : Chain) : Nat :=
  let q1 := probeFirstOwned c 1 10
  let q2 := if q1 = 0 then probeFirstOwned c 11 30 else q1
  if q2 = 0 then recheckTop c else q2

/-- The `for (const log of receipt.logs)` loop over the known
subscription-created topics, carrying the current `subId` (0 = unset).
The v2 branch takes `topics[1]` literally with no ownership check; the
v2.5 branch runs the owner-only probes 1..20, then (when the data decodes
as an address) the probes of `v25Probes`; `if (subId) break` ends the loop
on the first nonzero value. -/
def pathDGo (c : Chain) : List EthLog → Nat → Nat
  | [], s => s
  | l :: rest, s =>
    let t0 := l.topics.headD 0
    if t0 = v2CreatedTopic then
      let s2 := l.topics.getD 1 0
      if s2 ≠ 0 then s2 else pathDGo c rest s2
    else if t0 = v25CreatedTopic then
      let p := probeFirstOwned c 1 20
      let s2 := if p ≠ 0 then p else s
      if s2 ≠ 0 then s2
      else if decodeAddressOk l.data then
        let q3 := v25Probes c
        if q3 ≠ 0 then q3 else pathDGo c rest q3
      else pathDGo c rest s2
    else pathDGo c rest s

/-- Known-topic log scan, entered with the candidate produced by the direct
hex extraction. -/
def pathD (c : Chain) (s : Nat) : Nat :=
  pathDGo c c.receiptLogs s

/-- Outcome of the resolution: a subscription id, or the final
`throw new Error("Could not find a usable subscription ...")`. -/
inductive ResolveOutcome where
  | ok (id : Nat)
  | failed
deriving DecidableEq, Repr

/-- Direct approach of STEP 2's tail: check subscription 1 (owned → use it;
existing but foreign → remember `firstSubExists`), then probe 2..5 for an
owned subscription; as a last resort use id 1 with a warning when
subscription 1 did not exist at all, and throw when it exists but belongs
to someone else. -/
def pathE (c : Chain) : ResolveOutcome :=
  match c.getSubscription 1 with
  | some sub =>
    if sub.subOwner == c.signer then .ok 1
    else
      let s2 := probeFirstOwned c 2 5
      if s2 ≠ 0 then .ok s2 else .failed
  | none =>
    let s2 := probeFirstOwned c 2 5
    if s2 ≠ 0 then .ok s2 else .ok 1

/-- The complete subscription resolution of the `request-randomness` task:
event-diff strategy, then (for a single two-topic log) the enumeration and
wide-probe fallbacks, then the direct hex extraction and the known-topic
scan, then the direct approach with its last-resort fallback. -/
def resolveSubId (c : Chain) : ResolveOutcome :=
  let s1 := pathA c
  let s2 := if s1 = 0 then (if singleTwoTopicLog c then pathB c else 0) else s1
  let s3 := if s2 = 0 then pathD c (pathC c) else s2
  if s3 ≠ 0 then .ok s3 else pathE c

/-! ### Request-id extraction after submission (`request-randomness`, STEP 6)

After the request transaction is mined the script reads
`requestId = await consumer.s_requestId()` and then scans the receipt for a
coordinator `RandomWordsRequested` log, printing the event's `topics[1]`.
The scan only logs; the value used from then on is the direct read. -/

/-- Request ids decoded from coordinator `RandomWordsRequested` logs during
the receipt scan (each one is printed by the script). -/
def loggedEventRequestIds (coordinatorAddr : Nat) (logs : List EthLog) : List Nat :=
  logs.filterMap (fun l =>
    if l.addr = coordinatorAddr ∧ l.topics.headD 0 = randomWordsRequestedTopic then
      some (l.topics.getD 1 0)
    else none)

/-- The event-derived request id, when a `RandomWordsRequested` log from the
coordinator is present in the receipt. -/
def eventRequestIdFromLogs (coordinatorAddr : Nat) (logs : List EthLog) : Option Nat :=
  match logs.find? (fun l =>
      l.addr == coordinatorAddr && l.topics.headD 0 == randomWordsRequestedTopic) with
  | some l => some (l.topics.getD 1 0)
  | none => none

/-- Result of the submission step: the request id the flow continues with,
or a hard mismatch error. -/
inductive SubmitOutcome where
  | ok (requestId : Nat)
  | mismatchError
deriving DecidableEq, Repr

/-- What the script computes after the request transaction is mined: it
returns the direct `s_requestId` read together with the list of
event-derived ids it printed.  There is no comparison of the two sources
anywhere in the script (no mismatch branch exists). -/
def submitResult (sRequestId coordinatorAddr : Nat) (logs : List EthLog) :
    SubmitOutcome × List Nat :=
  (.ok sRequestId, loggedEventRequestIds coordinatorAddr logs)

/-- Request-id extraction of `request-randomness-2`: `DiceRolled` log from
the consumer, else `RandomWordsRequested` log from the coordinator, else the
default `0n` with a warning. -/
def part2RequestId (consumerAddr coordinatorAddr : Nat) (logs : List EthLog) : Nat :=
  match logs.find? (fun l =>
      l.addr == consumerAddr && l.topics.headD 0 == diceRolledTopic) with
  | some l => l.topics.getD 1 0
  | none =>
    match logs.find? (fun l =>
        l.addr == coordinatorAddr && l.topics.headD 0 == randomWordsRequestedTopic) with
    | some l => l.topics.getD 1 0
    | none => 0

/-! ### The add-consumer step (`request-randomness`, STEP 4) -/

/-- Outcome of one transaction attempt as seen by the surrounding `catch`:
success, an error without revert data, or an error whose `error.data` holds
the given bytes. -/
inductive TxTry where
  | success
  | revertNoData
  | revertWith (data : List Nat)
deriving DecidableEq, Repr

/-- The revert data `'0x1f6a65b6'` mapped to `NonExistentSubscription` by
the script's selector table. -/
def nonExistentSubSelector : List Nat := [0x1f, 0x6a, 0x65, 0xb6]

/-- Transactions the add-consumer step can issue. -/
inductive StepAct where
  | addConsumerAttempt
  | createSubRecovery
  | addConsumerRetry
deriving DecidableEq, Repr

/-- How the add-consumer step ends. -/
inductive AddConsumerOutcome where
  | added
  | thrownSubMissing
  | addedOnRetry
  | recoveryThrown
  | rethrown
deriving DecidableEq, Repr

/-- Shallow embedding of the STEP 4 `try`/`catch`: the first `addConsumer`
attempt; on an error carrying data equal to the `NonExistentSubscription`
selector the `catch` prints diagnostics and throws
`new Error("Subscription ... does not exist")` right away; the recovery
branch written further down the same `catch` (create the subscription, retry
`addConsumer` once) re-tests the identical condition and is therefore
unreachable; any other error is rethrown. -/
def addConsumerStep (firstTry recoveryCreate retryAdd : TxTry) :
    List StepAct × AddConsumerOutcome :=
  match firstTry with
  | .success => ([.addConsumerAttempt], .added)
  | .revertNoData => ([.addConsumerAttempt], .rethrown)
  | .revertWith d =>
    if d = nonExistentSubSelector then
      ([.addConsumerAttempt], .thrownSubMissing)
    else if d = nonExistentSubSelector then
      (match recoveryCreate with
       | .success =>
         (match retryAdd with
          | .success =>
            ([.addConsumerAttempt, .createSubRecovery, .addConsumerRetry], .addedOnRetry)
          | _ =>
            ([.addConsumerAttempt, .createSubRecovery, .addConsumerRetry], .recoveryThrown))
       | _ => ([.addConsumerAttempt, .createSubRecovery], .recoveryThrown))
    else ([.addConsumerAttempt], .rethrown)

/-! ### The funding step (`request-randomness`, STEP 5) -/

/-- Observable events of the funding sequence. -/
inductive FundEvent where
  | approveSent
  | approveMined
  | transferSent
  | transferMined
deriving DecidableEq, Repr

/-- Straight-line embedding of STEP 5: `approve` is sent and awaited, then
the sub-id is encoded, then `transferAndCall` is sent and awaited; a failure
at any point propagates to the outer `catch` and everything after it is
skipped.  Each flag tells whether the corresponding remote operation
succeeds; the returned boolean is whether the step completes. -/
def fundingTrace (approveSendOk approveMineOk transferSendOk transferMineOk : Bool) :
    List FundEvent × Bool :=
  if !approveSendOk then ([], false)
  else if !approveMineOk then ([.approveSent], false)
  else if !transferSendOk then ([.approveSent, .approveMined], false)
  else if !transferMineOk then ([.approveSent, .approveMined, .transferSent], false)
  else ([.approveSent, .approveMined, .transferSent, .transferMined], true)

/-- Big-endian 32-byte ABI word of a value (the shared encoding of `uint64`
and `uint256` for in-range values). -/
def beWord (v : Nat) : List Nat :=
  (List.range 32).map (fun i => v / 256 ^ (31 - i) % 256)

/-- `AbiCoder.encode(['uint64'], [v])`: ethers range-checks the value and
throws `value out-of-bounds` for `v ≥ 2^64` (`none` here); otherwise it
produces the 32-byte word. -/
def abiEncodeUint64 (v : Nat) : Option (List Nat) :=
  if v < 2 ^ 64 then some (beWord v) else none

/-- `AbiCoder.encode(['uint256'], [v])`. -/
def abiEncodeUint256 (v : Nat) : Option (List Nat) :=
  if v < 2 ^ 256 then some (beWord v) else none

/-- The script's `try { uint64 } catch { uint256 }` encoding of the sub-id
for `transferAndCall`. -/
def encodeSubIdData (v : Nat) : Option (List Nat) :=
  match abiEncodeUint64 v with
  | some b => some b
  | none => abiEncodeUint256 v

/-! ### The fulfillment wait loop (`request-randomness`, STEP 7) -/

/-- What a poll tick observes when every RPC read of the tick succeeds:
the consumer's storage slot 0 (`s_randomWords` array length), the array's
first element slot, storage slot 3 (`s_gasAvailable`), and whether the
recent-blocks `RandomWordsFulfilled` scan found a log for our request id. -/
structure TickObs where
  arrayLength : Nat
  firstWord : Nat
  gasAvailable : Nat
  eventMatch : Bool
deriving DecidableEq, Repr

/-- A poll tick: either its observations, or some RPC call of the tick threw
(the tick's whole body is a `try` whose `catch` only prints). -/
inductive Tick where
  | obs (t : TickObs)
  | err
deriving DecidableEq, Repr

/-- What the watcher reports when a tick ends the loop. -/
inductive FulfillEvidence where
  | storageWord (w : Nat)
  | eventRecord
  | gasOnly
deriving DecidableEq, Repr

/-- Evaluation of one tick: a nonzero array length whose first element is
also nonzero returns that word; otherwise a nonzero `s_gasAvailable` returns
(with the matching event's data when the log scan found one, without word
data otherwise); otherwise the tick yields nothing, and a thrown tick yields
nothing (the error is swallowed). -/
def tickResult : Tick → Option FulfillEvidence
  | .err => none
  | .obs t =>
    if 0 < t.arrayLength ∧ t.firstWord ≠ 0 then some (.storageWord t.firstWord)
    else if 0 < t.gasAvailable then
      some (if t.eventMatch then .eventRecord else .gasOnly)
    else none

/-- Terminal state of the wait loop. -/
inductive WatchOutcome where
  | fulfilled (ev : FulfillEvidence)
  | timedOut
deriving DecidableEq, Repr

/-- `const waitInterval = 5000`. -/
def waitInterval : Nat := 5000

/-- `const timeout = 300000`. -/
def watchDeadline : Nat := 300000

/-- The STEP 7 loop: `while (elapsed < timeout) { sleep; elapsed +=
waitInterval; try { probes } catch { print } }`.  The pair returned is the
terminal state together with the number of iterations executed (`elapsed /
waitInterval` at exit); tick `i` is the probe run during iteration `i + 1`.
Falling out of the loop prints the timeout message and returns normally. -/
def watchFrom (ticks : Nat → Tick) (elapsed : Nat) : WatchOutcome × Nat :=
  if elapsed < watchDeadline then
    match tickResult (ticks (elapsed / waitInterval)) with
    | some ev => (.fulfilled ev, (elapsed + waitInterval) / waitInterval)
    | none => watchFrom ticks (elapsed + waitInterval)
  else (.timedOut, elapsed / waitInterval)
termination_by watchDeadline - elapsed
decreasing_by simp only [watchDeadline, waitInterval] at *; omega

/-! ### Proving-key compression (`contract-utils`, `encodeOnChainVRFProvingKey`) -/

/-- Value of one hex digit character (`BigInt` accepts both cases). -/
def hexDigit (c : Char) : Nat :=
  if c = '0' then 0 else if c = '1' then 1 else if c = '2' then 2
  else if c = '3' then 3 else if c = '4' then 4 else if c = '5' then 5
  else if c = '6' then 6 else if c = '7' then 7 else if c = '8' then 8
  else if c = '9' then 9 else if c = 'a' then 10 else if c = 'b' then 11
  else if c = 'c' then 12 else if c = 'd' then 13 else if c = 'e' then 14
  else if c = 'f' then 15 else if c = 'A' then 10 else if c = 'B' then 11
  else if c = 'C' then 12 else if c = 'D' then 13 else if c = 'E' then 14
  else if c = 'F' then 15 else 0

/-- `BigInt("0x" + s)` over the characters of `s`. -/
def hexStrVal (s : List Char) : Nat :=
  s.foldl (fun a c => a * 16 + hexDigit c) 0

/-- `uncompressedPubKey.startsWith("0x") ? slice(2) : unchanged`. -/
def strip0x (s : List Char) : List Char :=
  if s.take 2 = ['0', 'x'] then s.drop 2 else s

/-- `pubKeyBytes.startsWith("04") ? unchanged : "04" + pubKeyBytes`. -/
def ensure04 (s : List Char) : List Char :=
  if s.take 2 = ['0', '4'] then s else '0' :: '4' :: s

/-- The record returned by `encodeOnChainVRFProvingKey`. -/
structure ProvingKeyEncoding where
  keyHash : List Char
  compressed : List Char
  coordX : List Char
  coordY : List Char
deriving DecidableEq, Repr

/-- `encodeOnChainVRFProvingKey`, with `keccak` the hash of a `0x` hex
string passed as a parameter (its internals play no role in the claims).
Strings are lists of characters; `slice(2, 66)` is `drop 2` then `take 64`. -/
def encodeOnChainVRFProvingKey (keccak : List Char → List Char)
    (uncompressedPubKey : List Char) : ProvingKeyEncoding :=
  let pubKeyBytes := ensure04 (strip0x uncompressedPubKey)
  let xChars := (pubKeyBytes.drop 2).take 64
  let yChars := (pubKeyBytes.drop 66).take 64
  let y := hexStrVal yChars
  let tag : List Char := if y % 2 = 0 then ['0', '2'] else ['0', '3']
  let compressedKey := '0' :: 'x' :: (tag ++ xChars)
  { keyHash := keccak compressedKey
    compressed := compressedKey
    coordX := '0' :: 'x' :: xChars
    coordY := '0' :: 'x' :: yChars }

end VRF

namespace VRF

/-- The ownership confirmation the spec's property demands of a returned id. -/
def ownedEx (c : Chain) (id : Nat) : Prop :=
  ∃ sub, c.getSubscription id = some sub ∧ sub.subOwner = c.signer

theorem isOwned_spec (c : Chain) (id : Nat) (h : isOwned c id = true) :
    ownedEx c id := by
  unfold isOwned at h
  cases hg : c.getSubscription id with
  | none => rw [hg] at h; cases h
  | some sub =>
    rw [hg] at h
    exact ⟨sub, hg, by simpa using h⟩

theorem isFreshOwned_spec (c : Chain) (id : Nat) (h : isFreshOwned c id = true) :
    ∃ sub, c.getSubscription id = some sub ∧ sub.subOwner = c.signer ∧ sub.reqCount = 0 := by
  unfold isFreshOwned at h
  cases hg : c.getSubscription id with
  | none => rw [hg] at h; cases h
  | some sub =>
    rw [hg] at h
    simp only [Bool.and_eq_true, beq_iff_eq] at h
    exact ⟨sub, rfl, h.1, h.2⟩

theorem find?_getD_spec (c : Chain) (ids : List Nat) (id : Nat)
    (h : (ids.find? (fun i => isOwned c i)).getD 0 = id) (hne : id ≠ 0) :
    isOwned c id = true := by
  cases hf : ids.find? (fun i => isOwned c i) with
  | none => rw [hf] at h; simp at h; exact absurd h.symm hne
  | some x =>
    rw [hf] at h
    simp at h
    subst h
    exact List.find?_some hf

theorem probeFirstOwned_spec (c : Chain) (lo hi id : Nat)
    (h : probeFirstOwned c lo hi = id) (hne : id ≠ 0) : ownedEx c id :=
  isOwned_spec c id (find?_getD_spec c _ id h hne)

theorem probeFirstOwnedDesc_spec (c : Chain) (hi lo id : Nat)
    (h : probeFirstOwnedDesc c hi lo = id) (hne : id ≠ 0) : ownedEx c id :=
  isOwned_spec c id (find?_getD_spec c _ id h hne)

theorem firstOwnedIn_spec (c : Chain) (ids : List Nat) (id : Nat)
    (h : firstOwnedIn c ids = id) (hne : id ≠ 0) : ownedEx c id :=
  isOwned_spec c id (find?_getD_spec c _ id h hne)

theorem probeWideFresh_spec (c : Chain) (id : Nat)
    (h : probeWideFresh c = id) (hne : id ≠ 0) :
    ∃ sub, c.getSubscription id = some sub ∧ sub.subOwner = c.signer ∧ sub.reqCount = 0 := by
  unfold probeWideFresh at h
  cases hf : (List.range' 1 100).find? (fun i => isFreshOwned c i) with
  | none => rw [hf] at h; simp at h; exact absurd h.symm hne
  | some x =>
    rw [hf] at h
    simp at h
    subst h
    exact isFreshOwned_spec c _ (List.find?_some hf)

theorem pathA_spec (c : Chain) (id : Nat) (h : pathA c = id) (hne : id ≠ 0) :
    ownedEx c id := by
  unfold pathA at h
  cases hp : c.activeIdsPost with
  | none => rw [hp] at h; exact absurd h.symm hne
  | some post =>
    rw [hp] at h
    exact firstOwnedIn_spec c _ id h hne

theorem pathB_spec (c : Chain) (id : Nat) (h : pathB c = id) (hne : id ≠ 0) :
    ownedEx c id := by
  unfold pathB at h
  cases hp : c.activeIdsPost2 with
  | none =>
    rw [hp] at h
    simp only [ne_eq, not_true_eq_false, if_neg, if_false] at h
    exact (probeWideFresh_spec c id h hne).imp (fun sub hs => ⟨hs.1, hs.2.1⟩)
  | some ids =>
    rw [hp] at h
    by_cases hb : firstOwnedIn c ids ≠ 0
    · rw [if_pos hb] at h
      exact firstOwnedIn_spec c ids id h hne
    · rw [if_neg hb] at h
      exact (probeWideFresh_spec c id h hne).imp (fun sub hs => ⟨hs.1, hs.2.1⟩)

theorem pathC_foldl_spec (c : Chain) :
    ∀ (logs : List EthLog) (acc : Nat), (acc ≠ 0 → ownedEx c acc) →
      ∀ id, logs.foldl
        (fun acc l =>
          if l.addr = c.coordinator ∧ 64 ≤ l.data.length then
            let pid := hexVal (l.data.take 64)
            if 0 < pid ∧ pid < 1000000 then
              (if isOwned c pid then pid else acc)
            else acc
          else acc)
        acc = id → id ≠ 0 → ownedEx c id := by
  intro logs
  induction logs with
  | nil =>
    intro acc hacc id h hne
    simp only [List.foldl_nil] at h
    exact (hacc (h ▸ hne)).imp (fun s hs => h ▸ hs)
  | cons l rest ih =>
    intro acc hacc id h hne
    simp only [List.foldl_cons] at h
    refine ih _ ?_ id h hne
    intro hne2
    by_cases h1 : l.addr = c.coordinator ∧ 64 ≤ l.data.length
    · rw [if_pos h1] at hne2 ⊢
      by_cases h2 : 0 < hexVal (l.data.take 64) ∧ hexVal (l.data.take 64) < 1000000
      · rw [if_pos h2] at hne2 ⊢
        by_cases h3 : isOwned c (hexVal (l.data.take 64))
        · rw [if_pos h3] at hne2 ⊢
          exact isOwned_spec c _ h3
        · rw [if_neg h3] at hne2 ⊢
          exact hacc hne2
      · rw [if_neg h2] at hne2 ⊢
        exact hacc hne2
    · rw [if_neg h1] at hne2 ⊢
      exact hacc hne2

theorem pathC_spec (c : Chain) (id : Nat) (h : pathC c = id) (hne : id ≠ 0) :
    ownedEx c id := by
  unfold pathC at h
  exact pathC_foldl_spec c c.receiptLogs 0 (fun hz => absurd rfl hz) id h hne

theorem recheckTop_spec (c : Chain) (id : Nat) (h : recheckTop c = id) (hne : id ≠ 0) :
    ownedEx c id := by
  unfold recheckTop at h
  by_cases hm : 0 < maxExistingId c
  · rw [if_pos hm] at h
    exact probeFirstOwnedDesc_spec c _ _ id h hne
  · rw [if_neg hm] at h
    exact absurd h.symm hne


end VRF

namespace VRF

theorem v25Probes_spec (c : Chain) (id : Nat) (h : v25Probes c = id) (hne : id ≠ 0) :
    ownedEx c id := by
  simp only [v25Probes] at h
  by_cases hq1 : probeFirstOwned c 1 10 = 0
  · rw [if_pos hq1] at h
    by_cases hq2 : probeFirstOwned c 11 30 = 0
    · rw [if_pos hq2] at h
      exact recheckTop_spec c id h hne
    · rw [if_neg hq2] at h
      exact probeFirstOwned_spec c 11 30 id h hne
  · rw [if_neg hq1, if_neg hq1] at h
    exact probeFirstOwned_spec c 1 10 id h hne

theorem pathE_spec (c : Chain) (id : Nat) (h : pathE c = .ok id) :
    ownedEx c id ∨ (id = 1 ∧ c.getSubscription 1 = none) := by
  unfold pathE at h
  cases hg : c.getSubscription 1 with
  | some sub =>
    rw [hg] at h
    dsimp only at h
    by_cases ho : sub.subOwner == c.signer
    · rw [if_pos ho] at h
      injection h with hid
      exact Or.inl ⟨sub, hid ▸ hg, by simpa using ho⟩
    · rw [if_neg ho] at h
      by_cases hpr : probeFirstOwned c 2 5 ≠ 0
      · rw [if_pos hpr] at h
        injection h with hid
        exact Or.inl (probeFirstOwned_spec c 2 5 id hid (hid ▸ hpr))
      · rw [if_neg hpr] at h
        cases h
  | none =>
    rw [hg] at h
    dsimp only at h
    by_cases hpr : probeFirstOwned c 2 5 ≠ 0
    · rw [if_pos hpr] at h
      injection h with hid
      exact Or.inl (probeFirstOwned_spec c 2 5 id hid (hid ▸ hpr))
    · rw [if_neg hpr] at h
      injection h with hid
      exact Or.inr ⟨hid.symm, rfl⟩

end VRF

namespace VRF

theorem pathDGo_spec (c : Chain) :
    ∀ (logs : List EthLog) (s id : Nat), pathDGo c logs s = id → id ≠ 0 →
      s = id ∨ ownedEx c id ∨
        ∃ l ∈ logs, l.topics.headD 0 = v2CreatedTopic ∧ l.topics.getD 1 0 = id := by
  intro logs
  induction logs with
  | nil =>
    intro s id h hne
    exact Or.inl h
  | cons l rest ih =>
    intro s id h hne
    by_cases h1 : l.topics.headD 0 = v2CreatedTopic
    · simp only [pathDGo] at h
      rw [if_pos h1] at h
      by_cases h2 : l.topics.getD 1 0 ≠ 0
      · rw [if_pos h2] at h
        exact Or.inr (Or.inr ⟨l, List.mem_cons_self l rest, h1, h⟩)
      · rw [if_neg h2] at h
        push_neg at h2
        rcases ih _ id h hne with hs | hown | ⟨l2, hl2, hv2⟩
        · exact absurd (hs.symm.trans h2) hne
        · exact Or.inr (Or.inl hown)
        · exact Or.inr (Or.inr ⟨l2, List.mem_cons_of_mem l hl2, hv2⟩)
    · by_cases h1b : l.topics.headD 0 = v25CreatedTopic
      · simp only [pathDGo] at h
        rw [if_neg h1, if_pos h1b] at h
        by_cases hp : probeFirstOwned c 1 20 ≠ 0
        · rw [if_pos hp, if_pos hp] at h
          exact Or.inr (Or.inl (probeFirstOwned_spec c 1 20 id h hne))
        · rw [if_neg hp] at h
          by_cases hs : s ≠ 0
          · rw [if_pos hs] at h
            exact Or.inl h
          · rw [if_neg hs] at h
            push_neg at hs
            by_cases hd : decodeAddressOk l.data
            · rw [if_pos hd] at h
              by_cases hq : v25Probes c ≠ 0
              · rw [if_pos hq] at h
                exact Or.inr (Or.inl (v25Probes_spec c id h hne))
              · rw [if_neg hq] at h
                push_neg at hq
                rcases ih _ id h hne with hs2 | hown | ⟨l2, hl2, hv2⟩
                · exact absurd (hs2.symm.trans hq) hne
                · exact Or.inr (Or.inl hown)
                · exact Or.inr (Or.inr ⟨l2, List.mem_cons_of_mem l hl2, hv2⟩)
            · rw [if_neg hd] at h
              rcases ih _ id h hne with hs2 | hown | ⟨l2, hl2, hv2⟩
              · exact absurd (hs2.symm.trans hs) hne
              · exact Or.inr (Or.inl hown)
              · exact Or.inr (Or.inr ⟨l2, List.mem_cons_of_mem l hl2, hv2⟩)
      · simp only [pathDGo] at h
        rw [if_neg h1, if_neg h1b] at h
        rcases ih _ id h hne with hs | hown | ⟨l2, hl2, hv2⟩
        · exact Or.inl hs
        · exact Or.inr (Or.inl hown)
        · exact Or.inr (Or.inr ⟨l2, List.mem_cons_of_mem l hl2, hv2⟩)

/-- An id decoded literally from a v2 `SubscriptionCreated` topic of the
creation receipt (the unverified decode path). -/
def fromV2Topic (c : Chain) (id : Nat) : Prop :=
  ∃ l ∈ c.receiptLogs, l.topics.headD 0 = v2CreatedTopic ∧ l.topics.getD 1 0 = id

theorem resolveSubId_spec (c : Chain) (id : Nat) (h : resolveSubId c = .ok id) :
    ownedEx c id ∨ fromV2Topic c id ∨ (id = 1 ∧ c.getSubscription 1 = none) := by
  simp only [resolveSubId] at h
  by_cases h1 : pathA c = 0
  · rw [if_pos h1] at h
    by_cases h2 : singleTwoTopicLog c
    · rw [if_pos h2] at h
      by_cases h3 : pathB c = 0
      · rw [if_pos h3] at h
        by_cases h4 : pathD c (pathC c) ≠ 0
        · rw [if_pos h4] at h
          injection h with hid
          have hne : id ≠ 0 := hid ▸ h4
          rcases pathDGo_spec c c.receiptLogs (pathC c) id hid hne with hs | hown | hv2
          · exact Or.inl (pathC_spec c id hs hne)
          · exact Or.inl hown
          · exact Or.inr (Or.inl hv2)
        · rw [if_neg h4] at h
          rcases pathE_spec c id h with hown | hlast
          · exact Or.inl hown
          · exact Or.inr (Or.inr hlast)
      · rw [if_neg h3, if_pos (by exact h3 : pathB c ≠ 0)] at h
        injection h with hid
        exact Or.inl (pathB_spec c id hid (hid ▸ h3))
    · simp only [Bool.not_eq_true] at h2
      rw [h2] at h
      simp only [Bool.false_eq_true, if_false, if_true] at h
      by_cases h4 : pathD c (pathC c) ≠ 0
      · rw [if_pos h4] at h
        injection h with hid
        have hne : id ≠ 0 := hid ▸ h4
        rcases pathDGo_spec c c.receiptLogs (pathC c) id hid hne with hs | hown | hv2
        · exact Or.inl (pathC_spec c id hs hne)
        · exact Or.inl hown
        · exact Or.inr (Or.inl hv2)
      · rw [if_neg h4] at h
        rcases pathE_spec c id h with hown | hlast
        · exact Or.inl hown
        · exact Or.inr (Or.inr hlast)
  · rw [if_neg h1, if_neg h1, if_pos (by exact h1 : pathA c ≠ 0)] at h
    injection h with hid
    exact Or.inl (pathA_spec c id hid (hid ▸ h1))

end VRF

namespace VRF

theorem watchFrom_eq (ticks : Nat → Tick) (elapsed : Nat) :
    watchFrom ticks elapsed =
      if elapsed < watchDeadline then
        match tickResult (ticks (elapsed / waitInterval)) with
        | some ev => (.fulfilled ev, (elapsed + waitInterval) / waitInterval)
        | none => watchFrom ticks (elapsed + waitInterval)
      else (.timedOut, elapsed / waitInterval) := by
  rw [watchFrom]

theorem watch_run_none (ticks : Nat → Tick)
    (h : ∀ i, i < 60 → tickResult (ticks i) = none) :
    ∀ k, k ≤ 60 → watchFrom ticks ((60 - k) * waitInterval) = (.timedOut, 60) := by
  intro k
  induction k with
  | zero =>
    intro _
    rw [watchFrom_eq]
    simp [watchDeadline, waitInterval]
  | succ n ih =>
    intro hk
    rw [watchFrom_eq]
    have hlt : (60 - (n + 1)) * waitInterval < watchDeadline := by
      simp only [watchDeadline, waitInterval]; omega
    have hidx : (60 - (n + 1)) * waitInterval / waitInterval = 60 - (n + 1) := by
      simp [waitInterval]
    rw [if_pos hlt, hidx, h (60 - (n + 1)) (by omega)]
    have harith : (60 - (n + 1)) * waitInterval + waitInterval = (60 - n) * waitInterval := by
      simp only [waitInterval]; omega
    rw [harith]
    exact ih (by omega)

theorem watch_all_none (ticks : Nat → Tick)
    (h : ∀ i, i < 60 → tickResult (ticks i) = none) :
    watchFrom ticks 0 = (.timedOut, 60) := by
  have := watch_run_none ticks h 60 (le_refl 60)
  simpa using this

theorem watch_run_bound (ticks : Nat → Tick) :
    ∀ k, k ≤ 60 → (watchFrom ticks ((60 - k) * waitInterval)).2 ≤ 60 := by
  intro k
  induction k with
  | zero =>
    intro _
    rw [watchFrom_eq]
    simp [watchDeadline, waitInterval]
  | succ n ih =>
    intro hk
    rw [watchFrom_eq]
    have hlt : (60 - (n + 1)) * waitInterval < watchDeadline := by
      simp only [watchDeadline, waitInterval]; omega
    rw [if_pos hlt]
    have harith : (60 - (n + 1)) * waitInterval + waitInterval = (60 - n) * waitInterval := by
      simp only [waitInterval]; omega
    cases htick : tickResult (ticks ((60 - (n + 1)) * waitInterval / waitInterval)) with
    | some ev =>
      simp only [harith]
      have : (60 - n) * waitInterval / waitInterval = 60 - n := by simp [waitInterval]
      simp [this]
    | none =>
      simp only [harith]
      exact ih (by omega)

theorem watch_run_first (ticks : Nat → Tick) (i0 : Nat) (ev : FulfillEvidence)
    (hi : i0 < 60) (hev : tickResult (ticks i0) = some ev) :
    ∀ k, k ≤ 60 → 60 - k ≤ i0 →
      (∀ i, 60 - k ≤ i → i < i0 → tickResult (ticks i) = none) →
      watchFrom ticks ((60 - k) * waitInterval) = (.fulfilled ev, i0 + 1) := by
  intro k
  induction k with
  | zero =>
    intro _ hbound _
    omega
  | succ n ih =>
    intro hk hbound hnone
    rw [watchFrom_eq]
    have hlt : (60 - (n + 1)) * waitInterval < watchDeadline := by
      simp only [watchDeadline, waitInterval]; omega
    have hidx : (60 - (n + 1)) * waitInterval / waitInterval = 60 - (n + 1) := by
      simp [waitInterval]
    rw [if_pos hlt, hidx]
    by_cases hcase : 60 - (n + 1) = i0
    · rw [hcase, hev]
      have : (i0 * waitInterval + waitInterval) / waitInterval = i0 + 1 := by
        simp only [waitInterval]; omega
      simp [this]
    · have hj : 60 - (n + 1) < i0 := by omega
      rw [hnone (60 - (n + 1)) (le_refl _) hj]
      have harith : (60 - (n + 1)) * waitInterval + waitInterval = (60 - n) * waitInterval := by
        simp only [waitInterval]; omega
      rw [harith]
      exact ih (by omega) (by omega) (fun i h1 h2 => hnone i (by omega) h2)

theorem watch_first_success (ticks : Nat → Tick) (i0 : Nat) (ev : FulfillEvidence)
    (hi : i0 < 60) (hbefore : ∀ i, i < i0 → tickResult (ticks i) = none)
    (hev : tickResult (ticks i0) = some ev) :
    watchFrom ticks 0 = (.fulfilled ev, i0 + 1) := by
  have := watch_run_first ticks i0 ev hi hev 60 (le_refl 60) (by omega)
    (fun i _ h2 => hbefore i h2)
  simpa using this

end VRF

namespace VRF

/-! ### Concrete chain states used by the counterexamples and witnesses -/

/-- Chain with no enumeration support, an empty creation receipt and no
subscription existing at all: every discovery strategy comes up empty and
subscription 1 does not exist. -/
def chainNoSubs : Chain :=
  { signer := 0xA11CE
    coordinator := 0xC0
    activeIdsPre := none
    receiptLogs := []
    activeIdsPost := none
    activeIdsPost2 := none
    getSubscription := fun _ => none }

/-- A pre-existing subscription of the caller with five requests already
served (its request counter is nonzero). -/
def usedSub : Subscription :=
  { subOwner := 0xA11CE, balance := 0, nativeBalance := 0, reqCount := 5, consumers := [] }

/-- Chain whose only subscription is `usedSub` under id 3 and whose creation
receipt holds a single hashed-topic (v2.5) log, so that resolution falls
through to the owner-only probes. -/
def chainUsedSub : Chain :=
  { signer := 0xA11CE
    coordinator := 0xC0
    activeIdsPre := none
    receiptLogs := [{ addr := 0xC0, topics := [v25CreatedTopic, 99], data := [] }]
    activeIdsPost := none
    activeIdsPost2 := none
    getSubscription := fun i => if i = 3 then some usedSub else none }

/-- Receipt of a request transaction holding a coordinator
`RandomWordsRequested` log whose first indexed field is 7. -/
def requestLogs : List EthLog :=
  [{ addr := 0xC0, topics := [randomWordsRequestedTopic, 7], data := [] }]

/-! ### Claim statements taken literally from the specification -/

/-- The C1 property sentence, formalised: every identifier the resolver
returns has been confirmed owned by the calling address. -/
def ownershipVerified (c : Chain) : Prop :=
  ∀ id, resolveSubId c = .ok id → ownedEx c id

/-- Well-formed receipt logs: the JS script reads `log.topics[0]` of every
receipt log and `BigInt(log.topics[1])` of a v2-topic log, so the model
agrees with the script exactly on receipts whose logs have a first topic and,
for the v2 creation topic, a second one. -/
def wfLogs (c : Chain) : Prop :=
  ∀ l ∈ c.receiptLogs, l.topics ≠ [] ∧
    (l.topics.headD 0 = v2CreatedTopic → 2 ≤ l.topics.length)

/-- The C2 property sentence, formalised: whenever an event-derived request
id is available and disagrees with the direct read, the submission step ends
in the mismatch error rather than returning either value. -/
def raisesMismatch : Prop :=
  ∀ (s coord : Nat) (logs : List EthLog) (e : Nat),
    eventRequestIdFromLogs coord logs = some e → e ≠ s →
    (submitResult s coord logs).1 = .mismatchError

/-- The C6 property sentence, formalised: a small-range (upper bound ≤ 30)
linear probe accepts a candidate only if it is owned by the caller and its
request counter is zero. -/
def smallProbeRequiresFresh : Prop :=
  ∀ (c : Chain) (lo hi id : Nat), hi ≤ 30 → probeFirstOwned c lo hi = id → id ≠ 0 →
    ∃ sub, c.getSubscription id = some sub ∧ sub.subOwner = c.signer ∧ sub.reqCount = 0

/-! ### Claim C1 -/

/-- Claim C1, counterexample: on a chain where no strategy finds a candidate
and subscription 1 does not exist, the resolver returns id 1 even though no
ownership or consistency check confirmed it (subscription 1 has no on-chain
owner at all, so its owner cannot equal the calling address). -/
theorem c1_counterexample :
    resolveSubId chainNoSubs = .ok 1 ∧ chainNoSubs.getSubscription 1 = none ∧
      ¬ ownershipVerified chainNoSubs := by
  refine ⟨rfl, rfl, ?_⟩
  intro hver
  rcases hver 1 rfl with ⟨sub, hs, _⟩
  simp only [chainNoSubs] at hs
  cases hs

/-- Claim C1, amended: every identifier the resolver returns is either
confirmed owned by the calling address, or decoded literally from a v2
`SubscriptionCreated` topic of the creation receipt without an ownership
check, or is the warned last-resort id 1 returned exactly when subscription
1 does not exist. -/
theorem c1_amended_ownership (c : Chain) (hwf : wfLogs c) (id : Nat)
    (h : resolveSubId c = .ok id) :
    ownedEx c id ∨ fromV2Topic c id ∨ (id = 1 ∧ c.getSubscription 1 = none) := by
  clear hwf
  exact resolveSubId_spec c id h

/-- Witness for `c1_amended_ownership` at the concrete last-resort chain. -/
theorem c1_amended_ownership_witness :
    ownedEx chainNoSubs 1 ∨ fromV2Topic chainNoSubs 1 ∨
      (1 = 1 ∧ chainNoSubs.getSubscription 1 = none) :=
  c1_amended_ownership chainNoSubs (by simp [wfLogs, chainNoSubs]) 1 rfl

/-! ### Claim C2 -/

/-- Claim C2, counterexample: with the direct read giving 5 and the receipt's
`RandomWordsRequested` event giving 7, the submission step returns the direct
read instead of raising a mismatch error. -/
theorem c2_counterexample :
    eventRequestIdFromLogs 0xC0 requestLogs = some 7 ∧
      (submitResult 5 0xC0 requestLogs).1 = .ok 5 ∧
      ¬ raisesMismatch := by
  refine ⟨rfl, rfl, ?_⟩
  intro hcl
  have h := hcl 5 0xC0 requestLogs 7 rfl (by omega)
  exact absurd h (by decide)

/-- Claim C2, amended: when both the direct read and an event-derived id are
available and disagree, the step returns the direct read (no mismatch error
exists in the code); the event-derived id is only printed during the scan. -/
theorem c2_amended_no_mismatch (s coord : Nat) (logs : List EthLog) (e : Nat)
    (he : eventRequestIdFromLogs coord logs = some e) (hne : e ≠ s) :
    (submitResult s coord logs).1 = .ok s ∧ e ∈ (submitResult s coord logs).2 := by
  refine ⟨rfl, ?_⟩
  unfold eventRequestIdFromLogs at he
  cases hf : logs.find? (fun l =>
      l.addr == coord && l.topics.headD 0 == randomWordsRequestedTopic) with
  | none => rw [hf] at he; cases he
  | some l =>
    rw [hf] at he
    injection he with he2
    have hmem : l ∈ logs := List.mem_of_find?_eq_some hf
    have hp := List.find?_some hf
    simp only [Bool.and_eq_true, beq_iff_eq] at hp
    show e ∈ loggedEventRequestIds coord logs
    unfold loggedEventRequestIds
    rw [List.mem_filterMap]
    exact ⟨l, hmem, by rw [if_pos ⟨hp.1, hp.2⟩, he2]⟩

/-- Witness for `c2_amended_no_mismatch` at the concrete disagreeing state. -/
theorem c2_amended_no_mismatch_witness :
    (submitResult 5 0xC0 requestLogs).1 = .ok 5 ∧
      7 ∈ (submitResult 5 0xC0 requestLogs).2 :=
  c2_amended_no_mismatch 5 0xC0 requestLogs 7 rfl (by omega)

/-! ### Claim C3 -/

/-- Claim C3: when the add-consumer call reverts with the
`NonExistentSubscription` selector, the step throws immediately — its action
trace holds only the first attempt, and the create-subscription/retry
recovery written further down the same catch block is never reached,
whatever the recovery transactions would have returned. -/
theorem c3_recovery_unreachable (recoveryCreate retryAdd : TxTry) :
    addConsumerStep (.revertWith nonExistentSubSelector) recoveryCreate retryAdd =
      ([.addConsumerAttempt], .thrownSubMissing) := rfl

end VRF

namespace VRF

/-! ### Claim C4 -/

/-- The C4 evidence sentence, formalised: a nonzero random-word array length
alone makes the tick's probe succeed. -/
def lengthAloneIsEvidence : Prop :=
  ∀ t : TickObs, 0 < t.arrayLength → (tickResult (.obs t)).isSome = true

/-- Ticks that always observe array length 1 with a zero first word and zero
gas-available. -/
def probeTicksLenOnly : Nat → Tick := fun _ => .obs ⟨1, 0, 0, false⟩

/-- Claim C4, counterexample: every tick observes a nonzero array length
(slot 0 reads 1), yet the watch runs all 60 iterations and times out,
because the first array element is zero; a nonzero length alone is not
treated as fulfillment evidence. -/
theorem c4_counterexample :
    probeTicksLenOnly 0 = .obs ⟨1, 0, 0, false⟩ ∧
      watchFrom probeTicksLenOnly 0 = (.timedOut, 60) ∧
      ¬ lengthAloneIsEvidence := by
  refine ⟨rfl, watch_all_none probeTicksLenOnly (fun i _ => rfl), ?_⟩
  intro hcl
  have h := hcl ⟨1, 0, 0, false⟩ (by decide)
  exact absurd h (by decide)

/-- Claim C4, amended: a tick's probe succeeds exactly when the array length
is nonzero together with a nonzero first word, or the gas-available value is
nonzero; and the watch loop terminates with the fulfilled report the first
time a probe succeeds. -/
theorem c4_amended_first_strong_evidence (ticks : Nat → Tick) (i0 : Nat)
    (ev : FulfillEvidence) (hi : i0 < 60)
    (hbefore : ∀ i, i < i0 → tickResult (ticks i) = none)
    (hev : tickResult (ticks i0) = some ev) :
    watchFrom ticks 0 = (.fulfilled ev, i0 + 1)
    ∧ ∀ t : TickObs, (tickResult (.obs t)).isSome = true ↔
        ((0 < t.arrayLength ∧ t.firstWord ≠ 0) ∨ 0 < t.gasAvailable) := by
  refine ⟨watch_first_success ticks i0 ev hi hbefore hev, ?_⟩
  intro t
  unfold tickResult
  by_cases h1 : 0 < t.arrayLength ∧ t.firstWord ≠ 0
  · simp [h1]
  · by_cases h2 : 0 < t.gasAvailable
    · simp [h1, h2]
    · simp [h1, h2]

/-- Ticks whose first two probes throw and whose third observes a stored
random word. -/
def ticksThirdWord : Nat → Tick :=
  fun i => if i = 2 then .obs ⟨1, 7, 0, false⟩ else .err

/-- Witness for `c4_amended_first_strong_evidence`: the watch succeeds on
the third tick with the decoded word. -/
theorem c4_amended_first_strong_evidence_witness :
    watchFrom ticksThirdWord 0 = (.fulfilled (.storageWord 7), 3) :=
  (c4_amended_first_strong_evidence ticksThirdWord 2 (.storageWord 7)
    (by omega) (by decide) rfl).1

/-! ### Claim C5 -/

/-- Claim C5: when no probe ever reports fulfillment during the 60 ticks of
the 300s deadline polled at 5s intervals, the watcher ends in the timed-out
state after exactly 60 iterations, returned as a normal value rather than
thrown — and a tick whose probes threw contributes nothing (the error is
swallowed, the loop simply proceeds to the next tick). -/
theorem c5_timeout_is_normal (ticks : Nat → Tick)
    (h : ∀ i, i < 60 → tickResult (ticks i) = none) :
    watchFrom ticks 0 = (.timedOut, 60) ∧ tickResult Tick.err = none :=
  ⟨watch_all_none ticks h, rfl⟩

/-- Witness for `c5_timeout_is_normal`: every single tick throws and the
watch still times out normally after 60 iterations. -/
theorem c5_timeout_is_normal_witness :
    watchFrom (fun _ => Tick.err) 0 = (.timedOut, 60) ∧ tickResult Tick.err = none :=
  c5_timeout_is_normal (fun _ => Tick.err) (fun _ _ => rfl)

/-! ### Claim C9 -/

/-- Claim C9: the wait loop executes at most 60 iterations for every
possible sequence of probe outcomes — each iteration unconditionally adds
the 5000ms interval to the elapsed counter, so even a probe that throws on
every tick cannot keep the loop alive past the deadline. -/
theorem c9_loop_bound (ticks : Nat → Tick) : (watchFrom ticks 0).2 ≤ 60 := by
  have h := watch_run_bound ticks 60 (le_refl 60)
  simpa using h

/-! ### Claim C6 -/

/-- Claim C6, counterexample: subscription 3 belongs to the caller but has a
nonzero request counter (five prior requests); the owner-only 1..20 probe of
the hashed-topic branch still selects it — the resolver returns id 3 — so
the small-range pass does not require a zero request counter. -/
theorem c6_counterexample :
    resolveSubId chainUsedSub = .ok 3 ∧
      chainUsedSub.getSubscription 3 = some usedSub ∧
      usedSub.subOwner = chainUsedSub.signer ∧ usedSub.reqCount = 5 ∧
      ¬ smallProbeRequiresFresh := by
  refine ⟨rfl, rfl, rfl, rfl, ?_⟩
  intro hcl
  rcases hcl chainUsedSub 1 20 3 (by omega) rfl (by omega) with ⟨sub, hs, _, hr⟩
  have hu : sub = usedSub := by
    have : chainUsedSub.getSubscription 3 = some usedSub := rfl
    rw [this] at hs
    injection hs with h2
    exact h2.symm
  rw [hu] at hr
  exact absurd hr (by decide)

/-- Claim C6, amended: only the wide 1..100 probe insists on a zero request
counter in addition to ownership; the small-range probes (1..10, 11..30,
1..20, 2..5) accept on owner match alone, so they can select a pre-existing
subscription of the same owner whose request counter is nonzero. -/
theorem c6_amended_probe_invariants (c : Chain) :
    (∀ id, probeWideFresh c = id → id ≠ 0 →
      ∃ sub, c.getSubscription id = some sub ∧ sub.subOwner = c.signer ∧ sub.reqCount = 0)
    ∧ (∀ lo hi id, probeFirstOwned c lo hi = id → id ≠ 0 → ownedEx c id) :=
  ⟨fun id h hne => probeWideFresh_spec c id h hne,
   fun lo hi id h hne => probeFirstOwned_spec c lo hi id h hne⟩

/-- Witness for `c6_amended_probe_invariants`: the 1..20 owner-only probe
selects the used subscription 3. -/
theorem c6_amended_probe_invariants_witness : ownedEx chainUsedSub 3 :=
  (c6_amended_probe_invariants chainUsedSub).2 1 20 3 rfl (by omega)

/-! ### Claim C7 -/

/-- Claim C7: in every funding sequence, whenever the transfer-with-data
call is issued at all, the approval has already been submitted and observed
mined before it — the approval events strictly precede the transfer events
in the trace. -/
theorem c7_approve_before_transfer (a b c d : Bool)
    (h : FundEvent.transferSent ∈ (fundingTrace a b c d).1) :
    (fundingTrace a b c d).1.indexOf FundEvent.approveMined <
      (fundingTrace a b c d).1.indexOf FundEvent.transferSent := by
  cases a <;> cases b <;> cases c <;> cases d <;> revert h <;> decide

/-- Witness for `c7_approve_before_transfer` on the all-success trace. -/
theorem c7_approve_before_transfer_witness :
    (fundingTrace true true true true).1.indexOf FundEvent.approveMined <
      (fundingTrace true true true true).1.indexOf FundEvent.transferSent :=
  c7_approve_before_transfer true true true true (by decide)

end VRF

namespace VRF

/-! ### Claim C8 -/

/-- The C8 sentence, formalised: the narrow (uint64) encoding step cannot
fail at runtime on any sub-id the chain can hand back. -/
def narrowEncodeNeverFails : Prop :=
  ∀ v, v < 2 ^ 256 → (abiEncodeUint64 v).isSome = true

/-- Claim C8, counterexample: for the sub-id `2^64` the uint64 encoding
throws (ethers raises `value out-of-bounds`), and only the catch-block
fallback to uint256 rescues the step — the narrow encoding can fail at
runtime, so the fallback is error recovery, not mere representation. -/
theorem c8_counterexample :
    abiEncodeUint64 (2 ^ 64) = none ∧
      encodeSubIdData (2 ^ 64) = some (beWord (2 ^ 64)) ∧
      ¬ narrowEncodeNeverFails := by
  have h1 : abiEncodeUint64 (2 ^ 64) = none := by
    unfold abiEncodeUint64
    rw [if_neg (by omega)]
  refine ⟨h1, ?_, ?_⟩
  · unfold encodeSubIdData
    rw [h1]
    unfold abiEncodeUint256
    rw [if_pos (by norm_num)]
  · intro hcl
    have h := hcl (2 ^ 64) (by norm_num)
    rw [h1] at h
    exact absurd h (by decide)

/-- Claim C8, amended: the encoder attempts the uint64 width first and falls
back to uint256 exactly when the narrow encoding fails at runtime, which
happens precisely for sub-ids of 2^64 and above; on the shared domain below
2^64 both encodings produce the same 32-byte word, and the combined step
never fails for any representable sub-id. -/
theorem c8_amended_encoding (v : Nat) (hv : v < 2 ^ 256) :
    encodeSubIdData v = some (beWord v)
    ∧ (v < 2 ^ 64 → abiEncodeUint64 v = some (beWord v))
    ∧ (2 ^ 64 ≤ v → abiEncodeUint64 v = none) := by
  by_cases h : v < 2 ^ 64
  · have h64 : abiEncodeUint64 v = some (beWord v) := by
      unfold abiEncodeUint64; rw [if_pos h]
    refine ⟨?_, fun _ => h64, fun hge => absurd h (not_lt.mpr hge)⟩
    unfold encodeSubIdData
    rw [h64]
  · have h64 : abiEncodeUint64 v = none := by
      unfold abiEncodeUint64; rw [if_neg h]
    have h256 : abiEncodeUint256 v = some (beWord v) := by
      unfold abiEncodeUint256; rw [if_pos hv]
    refine ⟨?_, fun hlt => absurd hlt h, fun _ => h64⟩
    unfold encodeSubIdData
    rw [h64, h256]

/-- Witness for `c8_amended_encoding` at the small sub-id 9. -/
theorem c8_amended_encoding_witness : encodeSubIdData 9 = some (beWord 9) :=
  (c8_amended_encoding 9 (by norm_num)).1

end VRF

namespace VRF

/-- Claim C10: for every uncompressed public key given with or without a
leading `0x` and with or without the leading `04` byte (the bare forms being
unambiguous, i.e. the x coordinate not itself starting with the characters
of those markers), the encoder returns the compressed key whose one-byte tag
is `02` exactly when the parsed y coordinate is even and `03` otherwise
followed by the x coordinate, returns the parsed x and y words of the input
as coordinates, and returns the keccak hash of that compressed key. -/
theorem c10_proving_key (keccak : List Char → List Char) (xs ys : List Char)
    (hx : xs.length = 64) (hy : ys.length = 64)
    (hx0 : xs.take 2 ≠ ['0', 'x']) (h04 : xs.take 2 ≠ ['0', '4']) :
    ∀ inp ∈ [xs ++ ys, '0' :: '4' :: (xs ++ ys), '0' :: 'x' :: (xs ++ ys),
        '0' :: 'x' :: '0' :: '4' :: (xs ++ ys)],
      (encodeOnChainVRFProvingKey keccak inp).compressed =
        '0' :: 'x' :: ((if hexStrVal ys % 2 = 0 then ['0', '2'] else ['0', '3']) ++ xs)
      ∧ (encodeOnChainVRFProvingKey keccak inp).coordX = '0' :: 'x' :: xs
      ∧ (encodeOnChainVRFProvingKey keccak inp).coordY = '0' :: 'x' :: ys
      ∧ (encodeOnChainVRFProvingKey keccak inp).keyHash =
          keccak ((encodeOnChainVRFProvingKey keccak inp).compressed) := by
  have htake2 : (xs ++ ys).take 2 = xs.take 2 := by
    rw [List.take_append_eq_append_take, hx]
    simp
  have hstrip1 : strip0x (xs ++ ys) = xs ++ ys := by
    unfold strip0x
    rw [htake2, if_neg hx0]
  have hens1 : ensure04 (xs ++ ys) = '0' :: '4' :: (xs ++ ys) := by
    unfold ensure04
    rw [htake2, if_neg h04]
  have hne04x : (['0', '4'] : List Char) ≠ ['0', 'x'] := by decide
  have hstrip2 : strip0x ('0' :: '4' :: (xs ++ ys)) = '0' :: '4' :: (xs ++ ys) := by
    unfold strip0x
    rw [show ('0' :: '4' :: (xs ++ ys)).take 2 = ['0', '4'] from rfl, if_neg hne04x]
  have hens2 : ensure04 ('0' :: '4' :: (xs ++ ys)) = '0' :: '4' :: (xs ++ ys) := by
    unfold ensure04
    rw [show ('0' :: '4' :: (xs ++ ys)).take 2 = ['0', '4'] from rfl, if_pos rfl]
  have hstrip3 : strip0x ('0' :: 'x' :: (xs ++ ys)) = xs ++ ys := by
    unfold strip0x
    rw [show ('0' :: 'x' :: (xs ++ ys)).take 2 = ['0', 'x'] from rfl, if_pos rfl]
    rfl
  have hstrip4 : strip0x ('0' :: 'x' :: '0' :: '4' :: (xs ++ ys)) = '0' :: '4' :: (xs ++ ys) := by
    unfold strip0x
    rw [show ('0' :: 'x' :: '0' :: '4' :: (xs ++ ys)).take 2 = ['0', 'x'] from rfl, if_pos rfl]
    rfl
  have hxall : xs.take 64 = xs := by rw [← hx]; exact List.take_length xs
  have hyall : ys.take 64 = ys := by rw [← hy]; exact List.take_length ys
  have hxc : (xs ++ ys).take 64 = xs := by
    rw [List.take_append_eq_append_take, hx]
    simpa using hxall
  have hxdrop : xs.drop 64 = [] := by rw [← hx]; exact List.drop_length xs
  have hyc : ((xs ++ ys).drop 64).take 64 = ys := by
    rw [List.drop_append_eq_append_drop, hx, hxdrop]
    simpa using hyall
  have core : ∀ inp, ensure04 (strip0x inp) = '0' :: '4' :: (xs ++ ys) →
      (encodeOnChainVRFProvingKey keccak inp).compressed =
        '0' :: 'x' :: ((if hexStrVal ys % 2 = 0 then ['0', '2'] else ['0', '3']) ++ xs)
      ∧ (encodeOnChainVRFProvingKey keccak inp).coordX = '0' :: 'x' :: xs
      ∧ (encodeOnChainVRFProvingKey keccak inp).coordY = '0' :: 'x' :: ys
      ∧ (encodeOnChainVRFProvingKey keccak inp).keyHash =
          keccak ((encodeOnChainVRFProvingKey keccak inp).compressed) := by
    intro inp hn
    simp [encodeOnChainVRFProvingKey, hn, hxc, hyc]
  intro inp hinp
  simp only [List.mem_cons, List.not_mem_nil, or_false] at hinp
  rcases hinp with h | h | h | h
  · exact h ▸ core _ (by rw [hstrip1, hens1])
  · exact h ▸ core _ (by rw [hstrip2, hens2])
  · exact h ▸ core _ (by rw [hstrip3, hens1])
  · exact h ▸ core _ (by rw [hstrip4, hens2])

end VRF

namespace VRF

/-- A 64-digit x coordinate of all `a` digits. -/
def xsW : List Char := List.replicate 64 'a'

/-- A 64-digit y coordinate of all `b` digits (an odd value). -/
def ysW : List Char := List.replicate 64 'b'

/-- Witness for `c10_proving_key` on the bare `x ++ y` presentation. -/
theorem c10_proving_key_witness :
    (encodeOnChainVRFProvingKey (fun _ => []) (xsW ++ ysW)).coordX = '0' :: 'x' :: xsW ∧
      (encodeOnChainVRFProvingKey (fun _ => []) (xsW ++ ysW)).coordY = '0' :: 'x' :: ysW :=
  ⟨(c10_proving_key (fun _ => []) xsW ysW (by decide) (by decide) (by decide) (by decide)
      (xsW ++ ysW) (List.mem_cons_self _ _)).2.1,
   (c10_proving_key (fun _ => []) xsW ysW (by decide) (by decide) (by decide) (by decide)
      (xsW ++ ysW) (List.mem_cons_self _ _)).2.2.1⟩

end VRF
